import Mathlib

/-!
# go-links: the alias validation, persistence and routing layer

A shallow embedding of the go-links URL-alias redirector (store.go,
handlers.go, main.go).  The SQLite-backed store is modelled as an in-memory
table together with the AUTOINCREMENT counter; the SQL behaviour the code
relies on (the UNIQUE constraint on path, ORDER BY path under the default
BINARY collation, rowsAffected) is reproduced on the list model.  Handlers
are modelled as pure functions from the decoded request data and the current
store to a response value and the next store.
-/

deriving instance DecidableEq for Except

/-- A stored link row (struct Link in store.go): id, path, url. -/
structure Link where
  id : Int
  path : String
  url : String
  deriving DecidableEq, Repr

/-- The persistence layer (struct Store in store.go): the links table plus
the SQLite AUTOINCREMENT state for the id column.  `nextId` is the next id
to hand out; SQLite AUTOINCREMENT never reuses an id after deletion. -/
structure Store where
  links : List Link
  nextId : Int
  deriving DecidableEq, Repr

/-- A store as produced by NewStore on a fresh database file: empty table,
ids starting from 1. -/
def emptyStore : Store := ⟨[], 1⟩

/-- Classified persistence-layer failures.  CreateLink and UpdateLink report
a UNIQUE-constraint violation on links.path with a message containing
"already exists"; DeleteLink reports "not found" when no row was affected.
The handlers classify errors by exactly those substrings, so the
constructors model that classification directly. -/
inductive StoreErr where
  | alreadyExists (path : String)
  | notFound (id : Int)
  deriving DecidableEq, Repr

/-- GetLinkByPath (store.go): SELECT the row whose path equals the argument;
sql.ErrNoRows is modelled as `none`.  In every reachable store paths are
unique, so taking the first match is exact. -/
def Store.getLinkByPath (s : Store) (path : String) : Option Link :=
  s.links.find? (fun l => l.path == path)

/-- CreateLink (store.go): INSERT INTO links(path, url).  The UNIQUE
constraint on path rejects the insert exactly when a stored row already has
this path; otherwise the row is appended with the AUTOINCREMENT id. -/
def Store.createLink (s : Store) (path url : String) : Except StoreErr Store :=
  if s.links.any (fun l => l.path == path) then
    .error (.alreadyExists path)
  else
    .ok ⟨s.links ++ [⟨s.nextId, path, url⟩], s.nextId + 1⟩

/-- UpdateLink (store.go): UPDATE links SET path, url WHERE id.  The UNIQUE
constraint fires exactly when the targeted row exists and a different row
already holds the new path; updating zero rows is a success (the handler
checks existence separately). -/
def Store.updateLink (s : Store) (id : Int) (path url : String) :
    Except StoreErr Store :=
  if (s.links.any (fun l => l.id == id)) &&
     (s.links.any (fun l => !(l.id == id) && l.path == path)) then
    .error (.alreadyExists path)
  else
    .ok ⟨s.links.map (fun l => if l.id == id then ⟨l.id, path, url⟩ else l),
         s.nextId⟩

/-- LinkExists (store.go): SELECT EXISTS(SELECT 1 FROM links WHERE id). -/
def Store.linkExists (s : Store) (id : Int) : Bool :=
  s.links.any (fun l => l.id == id)

/-- DeleteLink (store.go): DELETE FROM links WHERE id; rowsAffected = 0 is
reported as the "not found" error. -/
def Store.deleteLink (s : Store) (id : Int) : Except StoreErr Store :=
  if s.links.any (fun l => l.id == id) then
    .ok ⟨s.links.filter (fun l => !(l.id == id)), s.nextId⟩
  else
    .error (.notFound id)

/-- The ordering GetAllLinks sorts by: ascending path, which under SQLite's
default BINARY collation is bytewise UTF-8 order, identical to the
codepointwise order of Lean's String. -/
def linkLe (a b : Link) : Prop := a.path ≤ b.path

instance : DecidableRel linkLe :=
  fun a b => inferInstanceAs (Decidable (a.path ≤ b.path))

instance : IsTotal Link linkLe := ⟨fun a b => le_total a.path b.path⟩

instance : IsTrans Link linkLe := ⟨fun _ _ _ h h' => le_trans h h'⟩

/-- GetAllLinks (store.go): SELECT id, path, url FROM links ORDER BY path.
Modelled as sorting the table rows by ascending path. -/
def Store.getAllLinks (s : Store) : List Link :=
  s.links.insertionSort linkLe

/-- The whitespace class of Go's unicode.IsSpace, used by strings.TrimSpace. -/
def goIsSpace (c : Char) : Bool :=
  c.toNat == 9 || c.toNat == 10 || c.toNat == 11 || c.toNat == 12 ||
  c.toNat == 13 || c.toNat == 32 || c.toNat == 133 || c.toNat == 160 ||
  c.toNat == 0x1680 || (decide (0x2000 ≤ c.toNat) && decide (c.toNat ≤ 0x200A)) ||
  c.toNat == 0x2028 || c.toNat == 0x2029 || c.toNat == 0x202F ||
  c.toNat == 0x205F || c.toNat == 0x3000

/-- strings.TrimSpace on the character list: drop leading and trailing
whitespace. -/
def goTrimSpaceList (l : List Char) : List Char :=
  ((l.dropWhile goIsSpace).reverse.dropWhile goIsSpace).reverse

/-- strings.TrimSpace. -/
def goTrimSpace (s : String) : String := ⟨goTrimSpaceList s.data⟩

/-- Go's len() on a string is its UTF-8 byte length. -/
def goLen (l : List Char) : Nat := (l.map Char.utf8Size).sum

/-- The character class of the path regexp [a-zA-Z0-9_-]. -/
def isPathChar (c : Char) : Bool :=
  (decide ('a' ≤ c) && decide (c ≤ 'z')) ||
  (decide ('A' ≤ c) && decide (c ≤ 'Z')) ||
  (decide ('0' ≤ c) && decide (c ≤ '9')) || c == '_' || c == '-'

/-- ASCII lowercasing of one character.  strings.ToLower performs full
Unicode lowercasing, but validatePath only applies it after the
character-class check has restricted the path to ASCII, where the two
coincide. -/
def asciiLowerChar (c : Char) : Char :=
  if 'A' ≤ c ∧ c ≤ 'Z' then Char.ofNat (c.toNat + 32) else c

/-- ASCII lowercasing of a string (see asciiLowerChar). -/
def asciiLower (s : String) : String := ⟨s.data.map asciiLowerChar⟩

/-- The reserved-word list of validatePath (handlers.go). -/
def reservedWords : List String :=
  ["api", "swagger", "go", "favicon.ico", "robots.txt"]

/-- The four failures of validatePath, in source order: "path is required",
"path must be 50 characters or less", "path can only contain letters,
numbers, hyphens, and underscores", "'%s' is a reserved path". -/
inductive PathErr where
  | required
  | tooLong
  | badFormat
  | reservedPath
  deriving DecidableEq, Repr

/-- validatePath (handlers.go): trim whitespace, check the byte length
(Go len), match the regexp with anchors on [a-zA-Z0-9_-]+ (nonempty, every
character in the class), then compare the lowercased result against the
reserved words. -/
def validatePath (path : String) : Except PathErr Unit :=
  let p := goTrimSpace path
  if goLen p.data = 0 then .error .required
  else if goLen p.data > 50 then .error .tooLong
  else if !(!p.data.isEmpty && p.data.all isPathChar) then .error .badFormat
  else if reservedWords.contains (asciiLower p) then .error .reservedPath
  else .ok ()

example : validatePath "g" = .ok () := by decide
example : validatePath "API" = .error .reservedPath := by decide
example : validatePath "favicon.ico" = .error .badFormat := by decide
example : validatePath " g " = .ok () := by decide
example : validatePath "" = .error .required := by decide

/-- The scheme/rest split of Go net/url getScheme, character by character:
letters continue the scheme candidate; digits and plus, minus, dot continue
it except in first position (no scheme then); a colon in first position is
the "missing protocol scheme" error, later it closes the scheme; any other
character means the whole input is schemeless.  `orig` is the full input,
`acc` the reversed scheme candidate, `first` marks index zero. -/
def getSchemeCore (orig : List Char) :
    List Char → List Char → Bool → Except Unit (List Char × List Char)
  | [], _, _ => .ok ([], orig)
  | c :: cs, acc, first =>
    if (decide ('a' ≤ c) && decide (c ≤ 'z')) ||
       (decide ('A' ≤ c) && decide (c ≤ 'Z')) then
      getSchemeCore orig cs (c :: acc) false
    else if (decide ('0' ≤ c) && decide (c ≤ '9')) ||
            c == '+' || c == '-' || c == '.' then
      if first then .ok ([], orig) else getSchemeCore orig cs (c :: acc) false
    else if c == ':' then
      if first then .error () else .ok (acc.reverse, cs)
    else
      .ok ([], orig)

/-- The characters before the first question mark: net/url cuts the raw
query off before parsing the authority (the ForceQuery special case also
removes exactly the part from the first question mark on). -/
def cutQuery : List Char → List Char
  | [] => []
  | c :: cs => if c == '?' then [] else c :: cutQuery cs

/-- The authority component: the characters before the first slash. -/
def takeUntilSlash : List Char → List Char
  | [] => []
  | c :: cs => if c == '/' then [] else c :: takeUntilSlash cs

/-- parseAuthority splits userinfo from host at the last at sign; the host
is the suffix after it (the whole authority when there is none). -/
def afterLastAt (l : List Char) : List Char :=
  (l.reverse.takeWhile (fun c => !(c == '@'))).reverse

/-- The result of net/url parsing, restricted to the fields validateLink
consumes: Scheme and Host (plus Opaque, which records the rootless-path
case and leaves Host empty). -/
structure GoURL where
  scheme : String
  opaq : String
  host : String
  deriving DecidableEq, Repr

/-- Model of Go net/url.ParseRequestURI (parse with viaRequest = true),
restricted to Scheme/Host extraction: control characters and the empty
string are errors, "*" parses with empty scheme and host, then the scheme
is split off and lowercased, the query is cut, and a rootless rest is
opaque under a scheme and an error without one; an authority is read after
a double slash when a scheme is present.  Go's extra validation inside
parseAuthority/parseHost (userinfo and host character checks, ports,
percent escapes) is not modelled: every host Go accepts is accepted here
unchanged, which is exact on the plain http(s) URLs this development
evaluates. -/
def parseRequestURI (raw : String) : Option GoURL :=
  if raw.data.any (fun c => decide (c.toNat < 32) || c.toNat == 127) then none
  else if raw = "" then none
  else if raw = "*" then some ⟨"", "", ""⟩
  else
    match getSchemeCore raw.data raw.data [] true with
    | .error _ => none
    | .ok (schemeChars, rest) =>
      let scheme := asciiLower ⟨schemeChars⟩
      match cutQuery rest with
      | [] => if scheme ≠ "" then some ⟨scheme, "", ""⟩ else none
      | c :: cs =>
        if c == '/' then
          if scheme ≠ "" && cs.head? == some '/' then
            some ⟨scheme, "", ⟨afterLastAt (takeUntilSlash (cs.drop 1))⟩⟩
          else some ⟨scheme, "", ""⟩
        else
          if scheme ≠ "" then some ⟨scheme, ⟨c :: cs⟩, ""⟩ else none

/-- The url failures of validateLink, in source order: "url is required",
"invalid url", "unsupported url scheme", "url host is required". -/
inductive UrlErr where
  | required
  | invalid
  | badScheme
  | noHost
  deriving DecidableEq, Repr

/-- A validateLink failure: either the validatePath failure or one of the
url checks. -/
inductive LinkErr where
  | path (e : PathErr)
  | url (e : UrlErr)
  deriving DecidableEq, Repr

/-- validateLink (handlers.go): validatePath on the path field, then the
url checks on the raw (untrimmed) url field: empty after TrimSpace,
ParseRequestURI, scheme http or https, nonempty host. -/
def validateLink (link : Link) : Except LinkErr Unit :=
  match validatePath link.path with
  | .error e => .error (.path e)
  | .ok _ =>
    if goTrimSpace link.url = "" then .error (.url .required)
    else
      match parseRequestURI link.url with
      | none => .error (.url .invalid)
      | some u =>
        if u.scheme ≠ "http" && u.scheme ≠ "https" then .error (.url .badScheme)
        else if u.host = "" then .error (.url .noHost)
        else .ok ()

example : parseRequestURI "https://google.com" =
    some ⟨"https", "", "google.com"⟩ := by decide
example : parseRequestURI " https://google.com" = none := by decide
example : parseRequestURI "mailto:x@y" = some ⟨"mailto", "x@y", ""⟩ := by decide
example : parseRequestURI "HTTPS://u@h:8080/p?q" =
    some ⟨"https", "", "h:8080"⟩ := by decide
example : validateLink ⟨0, "g", "https://google.com"⟩ = .ok () := by decide
example : validateLink ⟨0, "g", " https://google.com"⟩ =
    .error (.url .invalid) := by decide
example : validateLink ⟨0, "g", "ftp://x"⟩ = .error (.url .badScheme) := by decide
example : validateLink ⟨0, "g", "http:foo"⟩ = .error (.url .noHost) := by decide
example : validateLink ⟨0, " g ", "https://google.com"⟩ = .ok () := by decide

/-- The JSON body written by handleGetLinks: Go's encoding/json renders the
nil slice (no rows appended in GetAllLinks) as null and a non-nil slice as
an array. -/
inductive LinksJson where
  | nullBody
  | arrBody (links : List Link)
  deriving DecidableEq, Repr

/-- The error map a portal handler renders the form with: key "General"
with the validateLink message, key "Path" with the duplicate-path message,
or key "General" with the generic failure text for any other store error. -/
inductive FormErr where
  | validation (e : LinkErr)
  | duplicatePath (p : String)
  | generic
  deriving DecidableEq, Repr

/-- The observable responses of the handlers (status line, Location header,
and body data the claims talk about).  writeErrorJSON bodies are identified
by their status and classified message. -/
inductive HResp where
  | created
  | okEmpty
  | noContent
  | validationError (e : LinkErr)
  | conflict (path : String)
  | notFoundErr
  | badRequest
  | methodNotAllowed
  | redirect (status : Nat) (location : String)
  | linksJson (body : LinksJson)
  | portalFormError (link : Link) (editMode : Bool) (e : FormErr)
  | internalError
  deriving DecidableEq, Repr

/-- The HTTP status each response is written with (http.StatusFound = 302
and http.StatusSeeOther = 303 appear inside redirect; a rendered portal
form page goes out with the implicit 200). -/
def HResp.status : HResp → Nat
  | .created => 201
  | .okEmpty => 200
  | .noContent => 204
  | .validationError _ => 422
  | .conflict _ => 409
  | .notFoundErr => 404
  | .badRequest => 400
  | .methodNotAllowed => 405
  | .redirect st _ => st
  | .linksJson _ => 200
  | .portalFormError _ _ _ => 200
  | .internalError => 500

/-- The parsed form data a portal handler reads: FormValue("path"),
FormValue("url") and FormValue("_method"); FormValue yields "" for an
absent field. -/
structure Form where
  path : String
  url : String
  methodOverride : String
  deriving DecidableEq, Repr

/-- strconv.ParseInt(s, 10, 64): optional sign, then a nonempty run of
decimal digits, within the int64 range; anything else (including overflow)
is an error. -/
def goParseInt64 (s : String) : Option Int :=
  match s.data with
  | [] => none
  | c :: rest =>
    let signDigits : Bool × List Char :=
      if c == '+' then (false, rest)
      else if c == '-' then (true, rest) else (false, c :: rest)
    match signDigits with
    | (neg, digits) =>
      if digits.isEmpty then none
      else if digits.all (fun d => decide ('0' ≤ d) && decide (d ≤ '9')) then
        let n : Nat := digits.foldl (fun acc d => acc * 10 + (d.toNat - 48)) 0
        let v : Int := if neg then -(n : Int) else (n : Int)
        if -(2 ^ 63) ≤ v ∧ v ≤ 2 ^ 63 - 1 then some v else none
      else none

/-- strings.TrimPrefix on character lists: `some` of the remainder when the
prefix matches, `none` otherwise. -/
def goTrimPrefixCore : List Char → List Char → Option (List Char)
  | s, [] => some s
  | [], _ :: _ => none
  | c :: cs, p :: ps => if c == p then goTrimPrefixCore cs ps else none

/-- strings.TrimPrefix: remove one occurrence of the prefix, else return
the string unchanged. -/
def goTrimPrefix (s pre : String) : String :=
  match goTrimPrefixCore s.data pre.data with
  | some r => ⟨r⟩
  | none => s

/-- handleGetLinks (handlers.go): GetAllLinks then the JSON encoding of the
resulting slice, status 200. -/
def handleGetLinks (s : Store) : HResp :=
  .linksJson (if s.getAllLinks.isEmpty then .nullBody else .arrBody s.getAllLinks)

/-- handleCreateLink (handlers.go), after a successful JSON decode of the
body: validateLink, 422 on failure; CreateLink with the raw decoded fields,
mapping the "already exists" error to 409 and any other store error to 500;
201 on success. -/
def handleCreateLink (s : Store) (link : Link) : HResp × Store :=
  match validateLink link with
  | .error e => (.validationError e, s)
  | .ok _ =>
    match s.createLink link.path link.url with
    | .error (.alreadyExists p) => (.conflict p, s)
    | .error (.notFound _) => (.internalError, s)
    | .ok s' => (.created, s')

/-- handleUpdateLink (handlers.go), after a successful JSON decode: the
LinkExists check runs first (404 when the id is absent), then validateLink
(422), then UpdateLink with the raw decoded fields (409 on "already
exists", 500 otherwise, 200 on success). -/
def handleUpdateLink (s : Store) (id : Int) (link : Link) : HResp × Store :=
  if !(s.linkExists id) then (.notFoundErr, s)
  else
    match validateLink link with
    | .error e => (.validationError e, s)
    | .ok _ =>
      match s.updateLink id link.path link.url with
      | .error (.alreadyExists p) => (.conflict p, s)
      | .error (.notFound _) => (.internalError, s)
      | .ok s' => (.okEmpty, s')

/-- handleDeleteLink (handlers.go): DeleteLink, mapping the "not found"
error to 404, other store errors to 500, success to 204. -/
def handleDeleteLink (s : Store) (id : Int) : HResp × Store :=
  match s.deleteLink id with
  | .error (.notFound _) => (.notFoundErr, s)
  | .error (.alreadyExists _) => (.internalError, s)
  | .ok s' => (.noContent, s')

/-- redirectHandler (handlers.go): GET only (405 otherwise), strip one
leading slash from the request path, look the alias up, 404 on
sql.ErrNoRows, else 302 Found with Location set to the stored url. -/
def redirectHandler (s : Store) (method : String) (urlPath : String) : HResp :=
  if method ≠ "GET" then .methodNotAllowed
  else
    match s.getLinkByPath (goTrimPrefix urlPath "/") with
    | none => .notFoundErr
    | some link => .redirect 302 link.url

/-- handlePortalPost (handlers.go): trim the form's path and url, build the
link (id zero value), validateLink; on validation failure re-render the
portal form (create mode) with the error; otherwise CreateLink with the
trimmed values, classifying "already exists" under the "Path" key, other
failures as the generic message, and redirecting 303 See Other on
success. -/
def handlePortalPost (s : Store) (f : Form) : HResp × Store :=
  let path := goTrimSpace f.path
  let url := goTrimSpace f.url
  let link : Link := ⟨0, path, url⟩
  match validateLink link with
  | .error e => (.portalFormError link false (.validation e), s)
  | .ok _ =>
    match s.createLink path url with
    | .error (.alreadyExists p) => (.portalFormError link false (.duplicatePath p), s)
    | .error (.notFound _) => (.portalFormError link false .generic, s)
    | .ok s' => (.redirect 303 "/go?success=Link created successfully", s')

/-- handlePortalUpdate (handlers.go): same shape as handlePortalPost but
with UpdateLink on the given id, edit-mode rendering on failure, and the
update flash message on success. -/
def handlePortalUpdate (s : Store) (id : Int) (f : Form) : HResp × Store :=
  let path := goTrimSpace f.path
  let url := goTrimSpace f.url
  let link : Link := ⟨id, path, url⟩
  match validateLink link with
  | .error e => (.portalFormError link true (.validation e), s)
  | .ok _ =>
    match s.updateLink id path url with
    | .error (.alreadyExists p) => (.portalFormError link true (.duplicatePath p), s)
    | .error (.notFound _) => (.portalFormError link true .generic, s)
    | .ok s' => (.redirect 303 "/go?success=Link updated successfully", s')

/-- handlePortalDelete (handlers.go): DeleteLink, then a 303 redirect back
to /go carrying the flash message ("not found" or generic on error). -/
def handlePortalDelete (s : Store) (id : Int) : HResp × Store :=
  match s.deleteLink id with
  | .error (.notFound _) => (.redirect 303 "/go?error=Link not found", s)
  | .error (.alreadyExists _) => (.redirect 303 "/go?error=Failed to delete link", s)
  | .ok s' => (.redirect 303 "/go?success=Link deleted successfully", s')

/-- goLinksRouter (handlers.go): strip the /go/links prefix; an empty rest
is the create endpoint (POST only, 405 otherwise); a rest starting with a
slash carries the id (400 when ParseInt fails), then the form method
override is applied: a POST whose "_method" form value is nonempty is
dispatched under that value, and the result routes PUT to the portal
update, DELETE to the portal delete, anything else to 405; any other rest
is a 404. -/
def goLinksRouter (s : Store) (method : String) (urlPath : String) (f : Form) :
    HResp × Store :=
  match (goTrimPrefix urlPath "/go/links").data with
  | [] => if method = "POST" then handlePortalPost s f else (.methodNotAllowed, s)
  | c :: rest =>
    if c == '/' then
      match goParseInt64 ⟨rest⟩ with
      | none => (.badRequest, s)
      | some id =>
        let m := if method = "POST" && f.methodOverride ≠ "" then f.methodOverride
                 else method
        if m = "PUT" then handlePortalUpdate s id f
        else if m = "DELETE" then handlePortalDelete s id
        else (.methodNotAllowed, s)
    else (.notFoundErr, s)

example : goParseInt64 "7" = some 7 := by decide
example : goParseInt64 "-12" = some (-12) := by decide
example : goParseInt64 "x" = none := by decide
example : goParseInt64 "" = none := by decide
example : goLinksRouter emptyStore "POST" "/go/links/7"
    ⟨"g", "https://g.example", "DELETE"⟩ =
    (.redirect 303 "/go?error=Link not found", emptyStore) := by decide
example : goLinksRouter emptyStore "POST" "/go/links/7"
    ⟨"g", "https://g.example", ""⟩ = (.methodNotAllowed, emptyStore) := by decide
example : handleCreateLink emptyStore ⟨0, "g", "https://google.com"⟩ =
    (.created, ⟨[⟨1, "g", "https://google.com"⟩], 2⟩) := by decide
example : redirectHandler ⟨[⟨1, "g", "https://google.com"⟩], 2⟩ "GET" "/g" =
    .redirect 302 "https://google.com" := by decide

/-- The letter-case variants of a single character: a lowercase ASCII
letter may be replaced by its uppercase form, every other character only by
itself.  (Used to state "every letter-case variant of w" for the reserved
words, which are lowercase ASCII.) -/
def caseChoices (c : Char) : List Char :=
  if 'a' ≤ c ∧ c ≤ 'z' then [c, Char.ofNat (c.toNat - 32)] else [c]

/-- v is a letter-case variant of w: same length, and each character of v
is a case choice of the corresponding character of w. -/
def caseVariantB : List Char → List Char → Bool
  | [], [] => true
  | c :: cs, d :: ds => (caseChoices d).contains c && caseVariantB cs ds
  | _ :: _, [] => false
  | [], _ :: _ => false

theorem caseVariantB_length : ∀ {v w : List Char}, caseVariantB v w = true →
    v.length = w.length := by
  intro v
  induction v with
  | nil =>
    intro w h
    cases w with
    | nil => rfl
    | cons d ds => simp [caseVariantB] at h
  | cons c cs ih =>
    intro w h
    cases w with
    | nil => simp [caseVariantB] at h
    | cons d ds =>
      simp only [caseVariantB, Bool.and_eq_true] at h
      simp [ih h.2]

theorem caseVariantB_all (P : Char → Bool) : ∀ {v w : List Char},
    caseVariantB v w = true →
    (∀ d ∈ w, ∀ c ∈ caseChoices d, P c = P d) → v.all P = w.all P := by
  intro v
  induction v with
  | nil =>
    intro w h _
    cases w with
    | nil => rfl
    | cons d ds => simp [caseVariantB] at h
  | cons c cs ih =>
    intro w h hP
    cases w with
    | nil => simp [caseVariantB] at h
    | cons d ds =>
      simp only [caseVariantB, Bool.and_eq_true] at h
      have hc : c ∈ caseChoices d := by
        have := h.1
        simpa [List.contains] using this
      have hPc : P c = P d := hP d (by simp) c hc
      have htail : cs.all P = ds.all P :=
        ih h.2 (fun d' hd' => hP d' (by simp [hd']))
      simp [List.all_cons, hPc, htail]

theorem caseVariantB_map (f : Char → Char) : ∀ {v w : List Char},
    caseVariantB v w = true →
    (∀ d ∈ w, ∀ c ∈ caseChoices d, f c = d) → v.map f = w := by
  intro v
  induction v with
  | nil =>
    intro w h _
    cases w with
    | nil => rfl
    | cons d ds => simp [caseVariantB] at h
  | cons c cs ih =>
    intro w h hf
    cases w with
    | nil => simp [caseVariantB] at h
    | cons d ds =>
      simp only [caseVariantB, Bool.and_eq_true] at h
      have hc : c ∈ caseChoices d := by
        have := h.1
        simpa [List.contains] using this
      have hfc : f c = d := hf d (by simp) c hc
      have htail : cs.map f = ds := ih h.2 (fun d' hd' => hf d' (by simp [hd']))
      simp [hfc, htail]

theorem dropWhile_all_false {p : Char → Bool} {l : List Char}
    (h : l.all (fun c => !p c) = true) : l.dropWhile p = l := by
  cases l with
  | nil => rfl
  | cons c cs =>
    simp only [List.all_cons, Bool.and_eq_true, Bool.not_eq_true'] at h
    simp [List.dropWhile_cons, h.1]

theorem goTrimSpaceList_all_false {l : List Char}
    (h : l.all (fun c => !goIsSpace c) = true) : goTrimSpaceList l = l := by
  unfold goTrimSpaceList
  rw [dropWhile_all_false h, dropWhile_all_false (by simpa using h),
    List.reverse_reverse]

theorem goLen_eq_length : ∀ {l : List Char},
    l.all (fun c => c.utf8Size == 1) = true → goLen l = l.length := by
  intro l
  induction l with
  | nil => intro _; rfl
  | cons c cs ih =>
    intro h
    simp only [List.all_cons, Bool.and_eq_true, beq_iff_eq] at h
    simp [goLen, List.map_cons, List.sum_cons, h.1]
    have := ih (by simp [List.all_eq_true] at h ⊢; exact h.2)
    simp [goLen] at this
    omega

theorem validatePath_variant_reservedPath (v w : String)
    (hv : caseVariantB v.data w.data = true)
    (h1 : ∀ d ∈ w.data, ∀ c ∈ caseChoices d, (!goIsSpace c) = (!goIsSpace d))
    (h2 : ∀ d ∈ w.data, ∀ c ∈ caseChoices d, (c.utf8Size == 1) = (d.utf8Size == 1))
    (h3 : ∀ d ∈ w.data, ∀ c ∈ caseChoices d, isPathChar c = isPathChar d)
    (h4 : ∀ d ∈ w.data, ∀ c ∈ caseChoices d, asciiLowerChar c = d)
    (hw1 : w.data.all (fun c => !goIsSpace c) = true)
    (hw2 : w.data.all (fun c => c.utf8Size == 1) = true)
    (hw3 : w.data.all isPathChar = true)
    (hlen0 : w.data.length ≠ 0) (hlen50 : w.data.length ≤ 50)
    (hres : reservedWords.contains w = true) :
    validatePath v = .error .reservedPath := by
  have hns : v.data.all (fun c => !goIsSpace c) = true := by
    rw [caseVariantB_all _ hv h1]; exact hw1
  have htrim : goTrimSpace v = v := by
    unfold goTrimSpace; rw [goTrimSpaceList_all_false hns]
  have hlen := caseVariantB_length hv
  have hsz : v.data.all (fun c => c.utf8Size == 1) = true := by
    rw [caseVariantB_all _ hv h2]; exact hw2
  have hgl : goLen v.data = w.data.length := by rw [goLen_eq_length hsz, hlen]
  have hall : v.data.all isPathChar = true := by
    rw [caseVariantB_all _ hv h3]; exact hw3
  have hmap : v.data.map asciiLowerChar = w.data := caseVariantB_map _ hv h4
  have hne : v.data.isEmpty = false := by
    cases hd : v.data with
    | nil => rw [hd] at hlen; exact absurd hlen.symm hlen0
    | cons a as => simp [hd]
  simp only [validatePath, htrim]
  rw [hgl, if_neg hlen0, if_neg (by omega)]
  simp only [hne, hall, Bool.not_false, Bool.and_true, Bool.not_true]
  rw [if_neg (by simp)]
  have hlow : asciiLower v = w := by
    show String.mk (v.data.map asciiLowerChar) = w
    rw [hmap]
  rw [hlow, if_pos hres]

theorem validatePath_variant_badFormat (v w : String)
    (hv : caseVariantB v.data w.data = true)
    (h1 : ∀ d ∈ w.data, ∀ c ∈ caseChoices d, (!goIsSpace c) = (!goIsSpace d))
    (h2 : ∀ d ∈ w.data, ∀ c ∈ caseChoices d, (c.utf8Size == 1) = (d.utf8Size == 1))
    (h3 : ∀ d ∈ w.data, ∀ c ∈ caseChoices d, isPathChar c = isPathChar d)
    (hw1 : w.data.all (fun c => !goIsSpace c) = true)
    (hw2 : w.data.all (fun c => c.utf8Size == 1) = true)
    (hw3 : w.data.all isPathChar = false)
    (hlen0 : w.data.length ≠ 0) (hlen50 : w.data.length ≤ 50) :
    validatePath v = .error .badFormat := by
  have hns : v.data.all (fun c => !goIsSpace c) = true := by
    rw [caseVariantB_all _ hv h1]; exact hw1
  have htrim : goTrimSpace v = v := by
    unfold goTrimSpace; rw [goTrimSpaceList_all_false hns]
  have hlen := caseVariantB_length hv
  have hsz : v.data.all (fun c => c.utf8Size == 1) = true := by
    rw [caseVariantB_all _ hv h2]; exact hw2
  have hgl : goLen v.data = w.data.length := by rw [goLen_eq_length hsz, hlen]
  have hall : v.data.all isPathChar = false := by
    rw [caseVariantB_all _ hv h3]; exact hw3
  simp only [validatePath, htrim]
  rw [hgl, if_neg hlen0, if_neg (by omega)]
  rw [if_pos (by simp [hall])]

theorem handleCreateLink_created {s s' : Store} {link : Link}
    (h : handleCreateLink s link = (.created, s')) :
    validateLink link = .ok () ∧
    s.links.any (fun l => l.path == link.path) = false ∧
    s' = ⟨s.links ++ [⟨s.nextId, link.path, link.url⟩], s.nextId + 1⟩ := by
  unfold handleCreateLink at h
  split at h
  next e heq => simp at h
  next x heq =>
    refine ⟨by cases x; exact heq, ?_⟩
    split at h
    next p heq2 => simp at h
    next i heq2 => simp at h
    next s2 heq2 =>
      unfold Store.createLink at heq2
      split at heq2
      next hany => simp at heq2
      next hany =>
        simp only [Except.ok.injEq] at heq2
        simp only [Prod.mk.injEq, true_and] at h
        refine ⟨by simpa using hany, ?_⟩
        rw [← h]
        exact heq2.symm

theorem any_false_filter_nil {q : Link → Bool} : ∀ {ls : List Link},
    ls.any q = false → ls.filter q = [] := by
  intro ls h
  induction ls with
  | nil => rfl
  | cons a as ih =>
    simp only [List.any_cons, Bool.or_eq_false_iff] at h
    simp [List.filter_cons, h.1, ih h.2]

theorem any_false_ne {q : Link → Bool} {ls : List Link}
    (h : ls.any q = false) {x : Link} (hx : x ∈ ls) : q x = false := by
  cases hqx : q x with
  | false => rfl
  | true => exact absurd (List.any_eq_true.mpr ⟨x, hx, hqx⟩) (by simp [h])

theorem find?_append_singleton {ls : List Link} {q : Link → Bool} {x : Link}
    (h : ls.any q = false) (hx : q x = true) :
    (ls ++ [x]).find? q = some x := by
  induction ls with
  | nil => simp [List.find?_cons, hx]
  | cons a as ih =>
    simp only [List.any_cons, Bool.or_eq_false_iff] at h
    simp [List.cons_append, List.find?_cons, h.1, ih h.2]

theorem string_data_append (a b : String) : (a ++ b).data = a.data ++ b.data := by
  cases a
  cases b
  rfl

theorem goTrimPrefixCore_append : ∀ (pd rd : List Char),
    goTrimPrefixCore (pd ++ rd) pd = some rd := by
  intro pd rd
  induction pd with
  | nil => cases rd <;> rfl
  | cons c cs ih => simp [goTrimPrefixCore, ih]

theorem goTrimPrefix_append (p r : String) : goTrimPrefix (p ++ r) p = r := by
  unfold goTrimPrefix
  rw [string_data_append, goTrimPrefixCore_append]

/-- Claim C6: every validly created link round-trips: after a successful
create of (path, url), a GET whose request path is "/" followed by the
link's path is answered with a 302 Found redirect whose Location is exactly
the link's url. -/
theorem create_then_redirect_roundtrip (s s' : Store) (link : Link)
    (h : handleCreateLink s link = (.created, s')) :
    redirectHandler s' "GET" ("/" ++ link.path) = .redirect 302 link.url := by
  obtain ⟨hval, hdup, rfl⟩ := handleCreateLink_created h
  unfold redirectHandler
  rw [if_neg (by decide)]
  rw [goTrimPrefix_append "/" link.path]
  unfold Store.getLinkByPath
  rw [find?_append_singleton hdup (by simp)]

/-- Witness for C6 at the spec's example: creating (g, https://google.com)
then resolving GET /g redirects to https://google.com. -/
theorem create_then_redirect_roundtrip_witness :
    handleCreateLink emptyStore (Link.mk 0 "g" "https://google.com") =
      (.created, Store.mk [Link.mk 1 "g" "https://google.com"] 2) ∧
    redirectHandler (Store.mk [Link.mk 1 "g" "https://google.com"] 2) "GET"
      ("/" ++ (Link.mk 0 "g" "https://google.com").path) =
      .redirect 302 "https://google.com" :=
  ⟨by decide,
   create_then_redirect_roundtrip emptyStore
     (Store.mk [Link.mk 1 "g" "https://google.com"] 2)
     (Link.mk 0 "g" "https://google.com") (by decide)⟩

/-- Claim C5: after creating (path g, url A), a second create with path g
and a (valid) url B is answered 409 Conflict (not a 500 server error), the
store still holds exactly one link with path g, its url is still A, and
GET /g still redirects to A. -/
theorem duplicate_create_conflict_preserves_first (s s1 s2 : Store)
    (la lb : Link) (r2 : HResp)
    (hA : la.path = "g") (hB : lb.path = "g") (hvB : validateLink lb = .ok ())
    (h1 : handleCreateLink s la = (.created, s1))
    (h2 : handleCreateLink s1 lb = (r2, s2)) :
    r2 = .conflict "g" ∧ r2.status = 409 ∧ r2.status ≠ 500 ∧ s2 = s1 ∧
    (s2.links.filter (fun l => l.path == "g")).length = 1 ∧
    (∀ l ∈ s2.links, l.path = "g" → l.url = la.url) ∧
    redirectHandler s2 "GET" "/g" = .redirect 302 la.url := by
  obtain ⟨hvA, hdupA, rfl⟩ := handleCreateLink_created h1
  rw [hA] at hdupA
  have hanyg : (s.links ++ [Link.mk s.nextId la.path la.url]).any
      (fun l => l.path == lb.path) = true := by
    rw [hB]
    simp [List.any_append, hA]
  have hfilter : ((s.links ++ [Link.mk s.nextId la.path la.url]).filter
      (fun l => l.path == "g")).length = 1 := by
    rw [List.filter_append, any_false_filter_nil hdupA]
    simp [List.filter, hA]
  have hurl : ∀ l ∈ s.links ++ [Link.mk s.nextId la.path la.url],
      l.path = "g" → l.url = la.url := by
    intro l hl hpg
    rcases List.mem_append.mp hl with hmem | hmem
    · have hqf := any_false_ne hdupA hmem
      rw [hpg] at hqf
      simp at hqf
    · rw [List.mem_singleton] at hmem
      rw [hmem]
  have hred : redirectHandler
      (Store.mk (s.links ++ [Link.mk s.nextId la.path la.url]) (s.nextId + 1))
      "GET" "/g" = .redirect 302 la.url := by
    unfold redirectHandler
    rw [if_neg (by decide)]
    have hg : goTrimPrefix "/g" "/" = "g" := by decide
    rw [hg]
    unfold Store.getLinkByPath
    rw [find?_append_singleton hdupA (by simp [hA])]
  have hcall : handleCreateLink
      (Store.mk (s.links ++ [Link.mk s.nextId la.path la.url]) (s.nextId + 1)) lb =
      (.conflict lb.path,
       Store.mk (s.links ++ [Link.mk s.nextId la.path la.url]) (s.nextId + 1)) := by
    unfold handleCreateLink
    simp only [hvB]
    unfold Store.createLink
    rw [if_pos hanyg]
  rw [hcall] at h2
  simp only [Prod.mk.injEq] at h2
  obtain ⟨hr2, hs2⟩ := h2
  subst hr2
  subst hs2
  rw [hB]
  exact ⟨rfl, rfl, by decide, rfl, hfilter, hurl, hred⟩

/-- Witness for C5: the spec's example with concrete urls A and B. -/
theorem duplicate_create_conflict_preserves_first_witness :
    validateLink (Link.mk 0 "g" "https://b.example") = .ok () ∧
    handleCreateLink emptyStore (Link.mk 0 "g" "https://a.example") =
      (.created, Store.mk [Link.mk 1 "g" "https://a.example"] 2) ∧
    handleCreateLink (Store.mk [Link.mk 1 "g" "https://a.example"] 2)
      (Link.mk 0 "g" "https://b.example") =
      (.conflict "g", Store.mk [Link.mk 1 "g" "https://a.example"] 2) ∧
    redirectHandler (Store.mk [Link.mk 1 "g" "https://a.example"] 2) "GET" "/g" =
      .redirect 302 "https://a.example" :=
  ⟨by decide, by decide, by decide,
   (duplicate_create_conflict_preserves_first emptyStore
      (Store.mk [Link.mk 1 "g" "https://a.example"] 2)
      (Store.mk [Link.mk 1 "g" "https://a.example"] 2)
      (Link.mk 0 "g" "https://a.example") (Link.mk 0 "g" "https://b.example")
      (HResp.conflict "g")
      rfl rfl (by decide) (by decide) (by decide)).2.2.2.2.2.2⟩

/-- Claim C1 exhibit (code bug): the JSON API create handler validates the
whitespace-trimmed path but persists the raw decoded one, so a create whose
raw path is " g " succeeds and stores a path that contains whitespace and
falls outside [A-Za-z0-9_-], violating the stored-path invariant (the
portal surface trims before storing). -/
theorem api_create_persists_untrimmed_path :
    handleCreateLink emptyStore (Link.mk 0 " g " "https://google.com") =
      (.created, Store.mk [Link.mk 1 " g " "https://google.com"] 2) ∧
    (" g ").data.all isPathChar = false ∧
    (" g ").data.any goIsSpace = true := by decide

/-- Claim C2 exhibit (code bug): on the same raw input the two create
surfaces diverge: with path " g " both accept but the API stores " g "
while the portal stores "g"; with url " https://google.com" the API rejects
(invalid url) while the portal, which trims before validating, accepts. -/
theorem api_portal_create_divergence :
    (handleCreateLink emptyStore (Link.mk 0 " g " "https://google.com")).2.links =
      [Link.mk 1 " g " "https://google.com"] ∧
    (handlePortalPost emptyStore (Form.mk " g " "https://google.com" "")).2.links =
      [Link.mk 1 "g" "https://google.com"] ∧
    Link.mk 1 " g " "https://google.com" ≠ Link.mk 1 "g" "https://google.com" ∧
    (handleCreateLink emptyStore (Link.mk 0 "g" " https://google.com")).1 =
      .validationError (.url .invalid) ∧
    (handlePortalPost emptyStore (Form.mk "g" " https://google.com" "")).1 =
      .redirect 303 "/go?success=Link created successfully" := by decide

/-- Claim C3 (amended): every letter-case variant of a reserved word fails
validatePath; for api, swagger and go the reported failure is ReservedPath,
but for favicon.ico and robots.txt the dot falls outside the path character
class, so the format check fires first and the reserved-word branch is
never reached. -/
theorem reserved_words_case_variants (v w : String)
    (hw : w ∈ reservedWords) (hv : caseVariantB v.data w.data = true) :
    (w ∈ (["api", "swagger", "go"] : List String) →
      validatePath v = .error .reservedPath) ∧
    (w ∈ (["favicon.ico", "robots.txt"] : List String) →
      validatePath v = .error .badFormat) := by
  have hw5 : w = "api" ∨ w = "swagger" ∨ w = "go" ∨ w = "favicon.ico" ∨
      w = "robots.txt" := by simpa [reservedWords] using hw
  rcases hw5 with rfl | rfl | rfl | rfl | rfl
  · exact ⟨fun _ => validatePath_variant_reservedPath v "api" hv (by decide)
      (by decide) (by decide) (by decide) (by decide) (by decide) (by decide)
      (by decide) (by decide) (by decide),
      fun hmem => absurd hmem (by decide)⟩
  · exact ⟨fun _ => validatePath_variant_reservedPath v "swagger" hv (by decide)
      (by decide) (by decide) (by decide) (by decide) (by decide) (by decide)
      (by decide) (by decide) (by decide),
      fun hmem => absurd hmem (by decide)⟩
  · exact ⟨fun _ => validatePath_variant_reservedPath v "go" hv (by decide)
      (by decide) (by decide) (by decide) (by decide) (by decide) (by decide)
      (by decide) (by decide) (by decide),
      fun hmem => absurd hmem (by decide)⟩
  · exact ⟨fun hmem => absurd hmem (by decide),
      fun _ => validatePath_variant_badFormat v "favicon.ico" hv (by decide)
        (by decide) (by decide) (by decide) (by decide) (by decide) (by decide)
        (by decide)⟩
  · exact ⟨fun hmem => absurd hmem (by decide),
      fun _ => validatePath_variant_badFormat v "robots.txt" hv (by decide)
        (by decide) (by decide) (by decide) (by decide) (by decide) (by decide)
        (by decide)⟩

/-- Counterexample to C3 as stated: the reserved word favicon.ico (a
letter-case variant of itself) is rejected by validatePath with the
format error, not with ReservedPath. -/
theorem reserved_dotted_word_not_reservedPath :
    "favicon.ico" ∈ reservedWords ∧
    caseVariantB "favicon.ico".data "favicon.ico".data = true ∧
    validatePath "favicon.ico" = .error .badFormat ∧
    PathErr.badFormat ≠ PathErr.reservedPath := by decide

/-- Witness for C3 (amended) at the mixed-case variant gO of go. -/
theorem reserved_words_case_variants_witness :
    "go" ∈ reservedWords ∧ caseVariantB "gO".data "go".data = true ∧
    validatePath "gO" = .error .reservedPath :=
  ⟨by decide, by decide,
   (reserved_words_case_variants "gO" "go" (by decide) (by decide)).1 (by decide)⟩

/-- Claim C4 (amended): validatePath fails on the empty string and on every
string whose whitespace-trimmed form has byte length 0 or over 50; the
length checks run after trimming, so surrounding whitespace does not count
towards the limit. -/
theorem validatePath_trimmed_length_bounds (s : String) :
    (s = "" → validatePath s = .error .required) ∧
    (goLen (goTrimSpace s).data = 0 → validatePath s = .error .required) ∧
    (goLen (goTrimSpace s).data > 50 → validatePath s = .error .tooLong) := by
  refine ⟨?_, ?_, ?_⟩
  · intro h
    subst h
    decide
  · intro h
    simp only [validatePath]
    rw [if_pos h]
  · intro h
    simp only [validatePath]
    rw [if_neg (by omega), if_pos h]

/-- Counterexample to C4 as stated: a 51-character string consisting of one
letter and 50 trailing spaces passes validatePath, because the trim runs
before the length check. -/
theorem validatePath_accepts_overlong_whitespace :
    (String.mk ('a' :: List.replicate 50 ' ')).data.length = 51 ∧
    goLen (String.mk ('a' :: List.replicate 50 ' ')).data = 51 ∧
    validatePath (String.mk ('a' :: List.replicate 50 ' ')) = .ok () := by decide

/-- Witness for C4 (amended) at a 51-letter string. -/
theorem validatePath_trimmed_length_bounds_witness :
    goLen (goTrimSpace (String.mk (List.replicate 51 'a'))).data > 50 ∧
    validatePath (String.mk (List.replicate 51 'a')) = .error .tooLong :=
  ⟨by decide,
   (validatePath_trimmed_length_bounds (String.mk (List.replicate 51 'a'))).2.2
     (by decide)⟩

/-- Claim C7: GetAllLinks returns each stored link exactly once (it is a
permutation of the table) sorted ascending by path: consecutive returned
links have nondecreasing paths. -/
theorem getAllLinks_sorted_by_path (s : Store) :
    s.getAllLinks.Perm s.links ∧ List.Chain' linkLe s.getAllLinks :=
  ⟨List.perm_insertionSort linkLe s.links,
   List.Pairwise.chain' (List.sorted_insertionSort linkLe s.links)⟩

/-- Claim C8 (amended): a write payload that fails validateLink never
changes the store; the create handler answers with the validation error,
and the update handler does so exactly when the target id exists - when it
does not, the existence check runs first and the handler answers 404
without ever validating. -/
theorem invalid_payload_write_handlers (s : Store) (link : Link) (id : Int)
    (e : LinkErr) (hv : validateLink link = .error e) :
    handleCreateLink s link = (.validationError e, s) ∧
    (handleUpdateLink s id link).2 = s ∧
    (s.linkExists id = true → handleUpdateLink s id link = (.validationError e, s)) ∧
    (s.linkExists id = false → handleUpdateLink s id link = (.notFoundErr, s)) := by
  have hc : handleCreateLink s link = (.validationError e, s) := by
    unfold handleCreateLink
    simp only [hv]
  cases hex : s.linkExists id with
  | false =>
    have hu : handleUpdateLink s id link = (.notFoundErr, s) := by
      unfold handleUpdateLink
      simp [hex]
    refine ⟨hc, by rw [hu], fun h => ?_, fun _ => hu⟩
    exact absurd h (by simp)
  | true =>
    have hu : handleUpdateLink s id link = (.validationError e, s) := by
      unfold handleUpdateLink
      simp [hex, hv]
    refine ⟨hc, by rw [hu], fun _ => hu, fun h => ?_⟩
    exact absurd h (by simp)

/-- Counterexample to C8 as stated: an update whose id is absent and whose
payload fails validateLink is answered 404, not with a validation error. -/
theorem update_missing_id_skips_validation :
    validateLink (Link.mk 0 "" "") = .error (.path .required) ∧
    handleUpdateLink emptyStore 1 (Link.mk 0 "" "") = (.notFoundErr, emptyStore) ∧
    HResp.notFoundErr ≠ HResp.validationError (.path .required) := by decide

/-- Witness for C8 (amended) at an empty-path payload. -/
theorem invalid_payload_write_handlers_witness :
    validateLink (Link.mk 0 "" "") = .error (.path .required) ∧
    handleCreateLink emptyStore (Link.mk 0 "" "") =
      (.validationError (.path .required), emptyStore) :=
  ⟨by decide,
   (invalid_payload_write_handlers emptyStore (Link.mk 0 "" "") 1
      (.path .required) (by decide)).1⟩

/-- Claim C9: with no stored links, GET /api/links is a 200 whose JSON body
is null (the nil slice GetAllLinks returns encodes as JSON null), not an
empty array. -/
theorem empty_store_links_json_null (s : Store) (h : s.links = []) :
    handleGetLinks s = .linksJson .nullBody ∧
    (handleGetLinks s).status = 200 ∧
    HResp.linksJson .nullBody ≠ HResp.linksJson (.arrBody []) := by
  have hempty : s.getAllLinks = [] := by
    unfold Store.getAllLinks
    rw [h]
    rfl
  have h1 : handleGetLinks s = .linksJson .nullBody := by
    unfold handleGetLinks
    rw [hempty]
    rfl
  exact ⟨h1, by rw [h1]; rfl, by decide⟩

/-- Witness for C9 at the empty store. -/
theorem empty_store_links_json_null_witness :
    emptyStore.links = [] ∧ handleGetLinks emptyStore = .linksJson .nullBody :=
  ⟨rfl, (empty_store_links_json_null emptyStore rfl).1⟩

/-- Claim C10: a POST to /go/links/{id} whose form carries _method=PUT or
_method=DELETE is dispatched exactly as the corresponding PUT or DELETE
request with the same form would be, and a POST without a method override
is answered 405 Method Not Allowed. -/
theorem portal_method_override_dispatch (s : Store) (f : Form) (idStr : String)
    (id : Int) (hid : goParseInt64 idStr = some id) :
    (f.methodOverride = "PUT" →
      goLinksRouter s "POST" ("/go/links/" ++ idStr) f =
      goLinksRouter s "PUT" ("/go/links/" ++ idStr) f) ∧
    (f.methodOverride = "DELETE" →
      goLinksRouter s "POST" ("/go/links/" ++ idStr) f =
      goLinksRouter s "DELETE" ("/go/links/" ++ idStr) f) ∧
    (f.methodOverride = "" →
      (goLinksRouter s "POST" ("/go/links/" ++ idStr) f).1 = .methodNotAllowed) := by
  cases idStr with
  | mk dl =>
    have hred : ∀ method : String,
        goLinksRouter s method ("/go/links/" ++ ⟨dl⟩) f =
          (match goParseInt64 ⟨dl⟩ with
           | none => (.badRequest, s)
           | some i =>
             if (if method = "POST" && f.methodOverride ≠ "" then f.methodOverride
                 else method) = "PUT"
             then handlePortalUpdate s i f
             else if (if method = "POST" && f.methodOverride ≠ ""
                 then f.methodOverride else method) = "DELETE"
             then handlePortalDelete s i
             else (.methodNotAllowed, s)) := fun _ => rfl
    refine ⟨fun hov => ?_, fun hov => ?_, fun hov => ?_⟩
    · rw [hred "POST", hred "PUT", hid]
      simp [hov]
    · rw [hred "POST", hred "DELETE", hid]
      simp [hov]
    · rw [hred "POST", hid]
      simp [hov]

/-- Witness for C10 at id 7 with the override PUT. -/
theorem portal_method_override_dispatch_witness :
    goParseInt64 "7" = some 7 ∧
    goLinksRouter emptyStore "POST" ("/go/links/" ++ "7")
      (Form.mk "g" "https://g.example" "PUT") =
    goLinksRouter emptyStore "PUT" ("/go/links/" ++ "7")
      (Form.mk "g" "https://g.example" "PUT") :=
  ⟨by decide,
   (portal_method_override_dispatch emptyStore
      (Form.mk "g" "https://g.example" "PUT") "7" 7 (by decide)).1 rfl⟩
